import Mathlib

/-!
Verification of the RAG ingestion/indexing/retrieval core of the Chatbot_IA
repository (multi-tenant retrieval-augmented generation service).

The Python sources are shallowly embedded as executable Lean definitions:

* `domain/entities/document.py`           → `Document`, `DocumentChunk`
* `domain/value_objects/search_query.py`  → `SearchQuery`
* `infrastructure/vector_store/chroma_vector_store_repository.py`
                                          → `sanitizeTenantId`, `collectionName`,
                                            `buildIds`, `buildMetadatas`, `add_chunks`,
                                            `search`, `delete_by_document_id`,
                                            `delete_tenant_collection`, `count_chunks`
* `infrastructure/embeddings/ai_provider_embedding_service.py`
                                          → `generate_embedding`, `generate_embeddings_batch`
* `application/services/rag_service.py`   → `ingest_text`, `delete_document`,
                                            `retrieve`, `count_chunks_service`
* `routes/rag_routes.py`                  → `delete_tenant_route`

External collaborators (the AI embedding provider and the ChromaDB server) are
modelled as an `ExtWorld` of oracles plus an explicit `ChromaState`
(collection name → stored entries).  Every stateful operation also returns the
list of external calls it performed (`ExtCall`), so "rejected before any
network call" is the statement that the returned call log is empty.

Python exceptions are modelled with `Except RagError`; Python floats carry
only the similarity arithmetic `1 - distance`, modelled exactly over `Rat`.
-/

deriving instance DecidableEq for Except

namespace RagCore

/-- Values stored in a Python metadata dict: the code only ever stores
strings and ints there. -/
inductive MetaVal where
  | s (v : String)
  | i (v : Int)
deriving Repr, DecidableEq

/-- A Python dict used as metadata, in insertion order.  A later binding of
the same key overrides an earlier one (as `{**a, **b}` does), so lookups
take the last matching pair and the key listing deduplicates keeping first
occurrences — exactly Python dict key semantics for the build patterns used
in this code base. -/
abbrev ChunkMeta := List (String × MetaVal)

/-- `m.get(k)` for the metadata dict: last binding of `k` wins. -/
def metaGet (m : ChunkMeta) (k : String) : Option MetaVal :=
  ((m.filter (fun kv => kv.1 = k)).getLast?).map (fun kv => kv.2)

/-- Deduplicate keeping the first occurrence of each key (Python dict key
order). -/
def keysAux : List String → List String → List String
  | [], _ => []
  | k :: rest, seen =>
    if k ∈ seen then keysAux rest seen else k :: keysAux rest (k :: seen)

/-- `list(m.keys())` for the metadata dict: first-insertion order, no
duplicates. -/
def metaKeys (m : ChunkMeta) : List String :=
  keysAux (m.map (fun kv => kv.1)) []

/-! ### Python string primitives

Python strings are sequences of code points, which is exactly a Lean
`String`'s `data : List Char`.  The Lean core implementations of `trim`,
`splitOn`, `toLower`, `replace` and `toInt?` walk byte positions and do not
reduce inside the kernel, so the Python string methods the code uses are
embedded here directly over the character list. -/

/-- Python `str.strip()`: drop leading and trailing whitespace. -/
def pyStrip (s : String) : String :=
  ⟨((s.data.dropWhile Char.isWhitespace).reverse.dropWhile Char.isWhitespace).reverse⟩

/-- Python `str.lower()`. -/
def pyLower (s : String) : String :=
  ⟨s.data.map Char.toLower⟩

/-- Python `str.replace(old, new)` for a single-character pattern (the only
shape the code uses: `"-"` and `" "`). -/
def pyReplaceChar (s : String) (old new : Char) : String :=
  ⟨s.data.map (fun c => if c = old then new else c)⟩

/-- Worker for `pySplitOn`: split at each non-overlapping occurrence of the
(non-empty) pattern, left to right.  The fuel starts at the text length and
at least one character is consumed per step. -/
def listSplitOn (pat : List Char) : Nat → List Char → List Char → List (List Char)
  | _, [], acc => [acc.reverse]
  | 0, rest, acc => [acc.reverse ++ rest]
  | fuel + 1, c :: rest, acc =>
    if pat.isPrefixOf (c :: rest) then
      acc.reverse :: listSplitOn pat fuel (List.drop pat.length (c :: rest)) []
    else
      listSplitOn pat fuel rest (c :: acc)

/-- Python `str.split(sep)` for a non-empty separator (an empty separator
leaves the string whole, as `String.splitOn` also specifies). -/
def pySplitOn (s sep : String) : List String :=
  if sep = "" then [s]
  else (listSplitOn sep.data s.data.length s.data []).map (fun l => ⟨l⟩)

/-- Worker for `pySplitWs`: maximal runs of non-whitespace characters. -/
def pyWords : List Char → List Char → List (List Char)
  | [], acc => if acc.isEmpty then [] else [acc.reverse]
  | c :: rest, acc =>
    if c.isWhitespace then
      if acc.isEmpty then pyWords rest [] else acc.reverse :: pyWords rest []
    else pyWords rest (c :: acc)

/-- Python `str.split()` with no argument: split on whitespace runs,
dropping empty pieces. -/
def pySplitWs (s : String) : List String :=
  (pyWords s.data []).map (fun l => ⟨l⟩)

/-- Digit accumulator for `pyToInt?`; `none` until a first digit is seen,
`none` forever on a non-digit. -/
def pyDigits : List Char → Option Nat → Option Nat
  | [], acc => acc
  | c :: rest, acc =>
    if c.isDigit then
      pyDigits rest (some ((acc.getD 0) * 10 + (c.toNat - ('0' : Char).toNat)))
    else none

/-- Python `int(str)` as used on metadata values: optional leading minus
sign then decimal digits; anything else raises (modelled as `none`). -/
def pyToInt? (s : String) : Option Int :=
  match s.data with
  | '-' :: rest => (pyDigits rest none).map (fun n => -(n : Int))
  | l => (pyDigits l none).map (fun n => (n : Int))

/-- Python exceptions raised or propagated by the embedded code. -/
inductive RagError where
  | valueError (msg : String)
  | indexError (msg : String)
  | attributeError (msg : String)
  | embeddingError (msg : String)
  | vectorStoreError (msg : String)
  | apiError (status : Nat) (code : String)
deriving Repr, DecidableEq

/-- `str(e)` — the message carried by an exception. -/
def errMsg : RagError → String
  | .valueError m => m
  | .indexError m => m
  | .attributeError m => m
  | .embeddingError m => m
  | .vectorStoreError m => m
  | .apiError _ c => c

/-- `DocumentChunk` from `domain/entities/document.py`: content, zero-based
chunk index, owning document id, metadata dict, optional embedding vector. -/
structure DocumentChunk where
  content : String
  chunk_index : Int
  document_id : String
  metadata : ChunkMeta
  embedding : Option (List Rat)
deriving Repr, DecidableEq

/-- `DocumentChunk` construction including `__post_init__` validation:
empty content and negative `chunk_index` raise `ValueError`. -/
def DocumentChunk.make (content : String) (chunk_index : Int) (document_id : String)
    (metadata : ChunkMeta) (embedding : Option (List Rat)) : Except RagError DocumentChunk :=
  if content = "" then
    .error (.valueError "El contenido del chunk no puede estar vacio")
  else if chunk_index < 0 then
    .error (.valueError "El chunk_index debe ser >= 0")
  else
    .ok ⟨content, chunk_index, document_id, metadata, embedding⟩

/-- `Document` from `domain/entities/document.py`, restricted to the fields
the RAG flow reads (`document_type`, `file_path`, `chunks` and `created_at`
play no role in `ingest_text` and are omitted). -/
structure Document where
  content : String
  user_id : Option String
  title : Option String
  id : Option String
  metadata : ChunkMeta
deriving Repr, DecidableEq

/-- `Document` construction including `__post_init__` validation: empty
content raises `ValueError`. -/
def Document.make (content : String) (user_id : Option String) (title : Option String)
    (id : Option String) (metadata : ChunkMeta) : Except RagError Document :=
  if content = "" then
    .error (.valueError "El contenido del documento no puede estar vacio")
  else
    .ok ⟨content, user_id, title, id, metadata⟩

/-- `SearchQuery` from `domain/value_objects/search_query.py`. -/
structure SearchQuery where
  query_text : String
  top_k : Int
  filters : Option ChunkMeta
  min_similarity : Rat
deriving Repr, DecidableEq

/-- `SearchQuery` construction including `__post_init__` validation:
`not query_text or not query_text.strip()`, `top_k <= 0` and
`not 0 <= min_similarity <= 1` each raise `ValueError`. -/
def SearchQuery.make (query_text : String) (top_k : Int) (filters : Option ChunkMeta)
    (min_similarity : Rat) : Except RagError SearchQuery :=
  if query_text = "" ∨ pyStrip query_text = "" then
    .error (.valueError "query_text no puede estar vacio")
  else if top_k ≤ 0 then
    .error (.valueError "top_k debe ser mayor a 0")
  else if ¬ (0 ≤ min_similarity ∧ min_similarity ≤ 1) then
    .error (.valueError "min_similarity debe estar entre 0 y 1")
  else
    .ok ⟨query_text, top_k, filters, min_similarity⟩

/-- `get_normalized_query`: `" ".join(query_text.split())` — collapse runs
of whitespace and strip the ends. -/
def SearchQuery.normalizedQuery (q : SearchQuery) : String :=
  " ".intercalate (pySplitWs q.query_text)

/-- Python `x or default` for an optional string argument: `None` and the
empty string both fall back to the default. -/
def orDefault (o : Option String) (d : String) : String :=
  match o with
  | none => d
  | some v => if v = "" then d else v

/-! ### The ChromaDB index, modelled as explicit state -/

/-- One record stored in a Chroma collection: id, document text, metadata,
and the embedding vector the caller supplied (`none` when the caller passed
`embeddings=None` and left the vector to the index server). -/
structure ChromaEntry where
  id : String
  document : String
  metadata : ChunkMeta
  embedding : Option (List Rat)
deriving Repr, DecidableEq

/-- The index server state: collection name → stored entries. -/
abbrev ChromaState := List (String × List ChromaEntry)

/-- The empty index (fresh Chroma server). -/
def emptyChroma : ChromaState := []

/-- Entries of a collection; a collection that does not exist has none. -/
def getEntries (st : ChromaState) (name : String) : List ChromaEntry :=
  match st.lookup name with
  | some es => es
  | none => []

/-- Does the collection exist on the server? -/
def hasCollection (st : ChromaState) (name : String) : Bool :=
  (st.lookup name).isSome

/-- Replace the entries of `name` (appending the collection if absent). -/
def setEntries (st : ChromaState) (name : String) (es : List ChromaEntry) : ChromaState :=
  match st with
  | [] => [(name, es)]
  | (n, old) :: rest =>
    if n = name then (n, es) :: rest else (n, old) :: setEntries rest name es

/-- `client.get_or_create_collection(name)`: create the collection lazily. -/
def getOrCreateCollection (st : ChromaState) (name : String) : ChromaState :=
  if hasCollection st name then st else st ++ [(name, [])]

/-- `client.delete_collection(name)` removes the collection; Chroma raises
when the collection does not exist. -/
def removeCollection (st : ChromaState) (name : String) : ChromaState :=
  st.filter (fun p => ¬ p.1 = name)

/-- External calls made by the embedded code (network round trips to the
embedding provider or the index server). -/
inductive ExtCall where
  | embedBatch (texts : List String)
  | indexGetOrCreate (collection : String)
  | indexAdd (collection : String) (count : Nat)
  | indexQuery (collection : String)
  | indexGet (collection : String)
  | indexDeleteWhere (collection : String)
  | indexDeleteCollection (collection : String)
deriving Repr, DecidableEq

/-- The external world: the AI provider's `embed_texts` (which may fail with
a provider error), and the cosine distance Chroma reports for a stored entry
against the query text (an oracle for the index server's vector
arithmetic — the repository code treats it as opaque data). -/
structure ExtWorld where
  embedTexts : List String → Except String (List (List Rat))
  distOf : String → ChromaEntry → Rat

/-! ### `AIProviderEmbeddingService` (infrastructure/embeddings) -/

/-- `generate_embedding`: empty or whitespace-only text returns `[]` without
a provider call; otherwise one `embed_texts([text])` round trip, taking the
first returned vector (`embeddings[0] if embeddings else []`); provider
errors are wrapped as `EmbeddingServiceException`. -/
def generate_embedding (w : ExtWorld) (text : String) :
    Except RagError (List Rat) × List ExtCall :=
  if text = "" ∨ pyStrip text = "" then
    (.ok [], [])
  else
    match w.embedTexts [text] with
    | .ok embeddings =>
      (.ok (match embeddings with | [] => [] | v :: _ => v), [.embedBatch [text]])
    | .error e => (.error (.embeddingError e), [.embedBatch [text]])

/-- `generate_embeddings_batch`: an empty input returns `[]` without a
provider round trip; otherwise one `embed_texts(texts)` call, with provider
errors wrapped as `EmbeddingServiceException`. -/
def generate_embeddings_batch (w : ExtWorld) (texts : List String) :
    Except RagError (List (List Rat)) × List ExtCall :=
  if texts.isEmpty then
    (.ok [], [])
  else
    match w.embedTexts texts with
    | .ok es => (.ok es, [.embedBatch texts])
    | .error e => (.error (.embeddingError e), [.embedBatch texts])

/-! ### The chunker

Modelled from the spec: the chunker is `langchain_text_splitters.
RecursiveCharacterTextSplitter`, a third-party library whose source is not
under `src/`; `rag_service.py` only configures it with `chunk_size`,
`chunk_overlap` and the separator list `["\n\n", "\n", ". ", " ", ""]`.
The model follows the spec: splitting recursively prefers the earliest
separator that yields chunks within `chunk_size` and never drops characters
of a chunk (sections 4.1 and 8), while a whitespace-only input produces zero
chunks (the edge-case policy of section 4.4, matching the library's
strip-whitespace behaviour — note this contradicts the literal section 8
sentence at whitespace-only inputs).  Chunks are never empty strings
(section 3 invariant).  Merging of small adjacent pieces and cross-piece
overlap are not modelled; overlap appears only at hard character cuts. -/

/-- Split `text` at every occurrence of `sep`, keeping the separator
attached to the end of the preceding piece, so no character is dropped.
Empty pieces are not produced. -/
def reattach (sep : String) : List String → List String
  | [] => []
  | [p] => if p = "" then [] else [p]
  | p :: q :: rest => (p ++ sep) :: reattach sep (q :: rest)

/-- Hard character cut for the empty-string separator fallback: windows of
`chunkSize` characters advancing by `step` (`chunk_size - chunk_overlap`)
characters, so consecutive windows overlap by `chunk_overlap`. -/
def hardCut (chunkSize step : Nat) : Nat → String → List String
  | 0, text => if text = "" then [] else [text]
  | fuel + 1, text =>
    if text.length ≤ chunkSize then
      if text = "" then [] else [text]
    else
      let piece := text.take chunkSize
      if piece = "" then [] else piece :: hardCut chunkSize step fuel (text.drop step)

/-- Recursive split over the prioritized separator list: a piece that fits in
`chunkSize` stands; a piece that does not is split at its earliest-priority
occurring separator and the fragments recurse with the remaining separators;
when no separator remains (the configured final `""` separator), characters
are cut hard — the exhausted-list case is that empty-string fallback. -/
def recSplit (chunkSize overlap : Nat) : List String → String → List String
  | [], text => hardCut chunkSize (max 1 (chunkSize - overlap)) text.length text
  | sep :: rest, text =>
    if text.length ≤ chunkSize then
      if text = "" then [] else [text]
    else if (pySplitOn text sep).length ≥ 2 then
      (reattach sep (pySplitOn text sep)).flatMap
        (fun piece =>
          if piece.length ≤ chunkSize then (if piece = "" then [] else [piece])
          else recSplit chunkSize overlap rest piece)
    else recSplit chunkSize overlap rest text

/-- `split_text`: whitespace-only input yields no chunks; input within
`chunk_size` is a single chunk equal to the input; longer input is split
recursively at the configured separators. -/
def splitText (chunkSize overlap : Nat) (text : String) : List String :=
  if pyStrip text = "" then []
  else if text.length ≤ chunkSize then [text]
  else recSplit chunkSize overlap ["\n\n", "\n", ". ", " "] text

/-! ### `ChromaVectorStoreRepository` (infrastructure/vector_store) -/

/-- `_get_collection_name` sanitization:
`tenant_id.replace("-", "_").replace(" ", "_").lower()`. -/
def sanitizeTenantId (tenant_id : String) : String :=
  pyLower (pyReplaceChar (pyReplaceChar tenant_id '-' '_') ' ' '_')

/-- `_get_collection_name`: `tenant_{sanitized}_chunks`. -/
def collectionName (tenant_id : String) : String :=
  "tenant_" ++ sanitizeTenantId tenant_id ++ "_chunks"

/-- `_build_ids`: `f"{c.document_id}:{c.chunk_index}"`. -/
def buildIds (chunks : List DocumentChunk) : List String :=
  chunks.map (fun c => c.document_id ++ ":" ++ toString c.chunk_index)

/-- `_build_metadatas`: `{"document_id": ..., "chunk_index": ...,
"tenant_id": tenant_id, **(c.metadata or {})}` per chunk. -/
def buildMetadatas (chunks : List DocumentChunk) (tenant_id : String) : List ChunkMeta :=
  chunks.map (fun c =>
    [("document_id", MetaVal.s c.document_id),
     ("chunk_index", MetaVal.i c.chunk_index),
     ("tenant_id", MetaVal.s tenant_id)] ++ c.metadata)

/-- Zip the parallel `ids`, `documents`, `metadatas` and (optional)
`embeddings` arguments of `collection.add` into stored entries.  When
`embeddings` is `none` (the repository passed `embeddings=None`) the index
server computes its own vectors; the provider vector stored with the entry
is then absent. -/
def buildEntries : List String → List String → List ChunkMeta →
    Option (List (Option (List Rat))) → List ChromaEntry
  | id :: ids, d :: ds, m :: ms, embs =>
    let head : Option (List Rat) := match embs with
      | some (x :: _) => x
      | some [] => none
      | none => none
    let rest : Option (List (Option (List Rat))) := match embs with
      | some (_ :: xs) => some xs
      | some [] => some []
      | none => none
    ⟨id, d, m, head⟩ :: buildEntries ids ds ms rest
  | _, _, _, _ => []

/-- `add_chunks`: an empty chunk list succeeds immediately; otherwise the
tenant collection is created or fetched, and ids, documents, metadatas and
embeddings are added.  `embeddings` is the per-chunk vector list when the
first chunk has one (`chunks[0].embedding is not None`) and `None`
otherwise. -/
def add_chunks (chunks : List DocumentChunk) (tenant_id : String) (st : ChromaState) :
    Except RagError Bool × ChromaState × List ExtCall :=
  match chunks with
  | [] => (.ok true, st, [])
  | c0 :: _ =>
    let name := collectionName tenant_id
    let st1 := getOrCreateCollection st name
    let ids := buildIds chunks
    let documents := chunks.map (fun c => c.content)
    let embeddings : Option (List (Option (List Rat))) :=
      if c0.embedding.isSome then some (chunks.map (fun c => c.embedding)) else none
    let metadatas := buildMetadatas chunks tenant_id
    let newEntries := buildEntries ids documents metadatas embeddings
    let st2 := setEntries st1 name (getEntries st1 name ++ newEntries)
    (.ok true, st2, [.indexGetOrCreate name, .indexAdd name chunks.length])

/-- Chroma `where` filter match: every filter key must equal the entry
metadata value. -/
def matchesWhere (f : ChunkMeta) (m : ChunkMeta) : Bool :=
  f.all (fun kv => metaGet m kv.1 = some kv.2)

/-- Insert an entry into a list kept ascending by the distance key. -/
def insertAsc (key : ChromaEntry → Rat) (e : ChromaEntry) : List ChromaEntry → List ChromaEntry
  | [] => [e]
  | x :: xs => if key e ≤ key x then e :: x :: xs else x :: insertAsc key e xs

/-- Order candidate entries by ascending distance (the nearest-neighbor
ranking the index server performs). -/
def sortAsc (key : ChromaEntry → Rat) : List ChromaEntry → List ChromaEntry
  | [] => []
  | x :: xs => insertAsc key x (sortAsc key xs)

/-- `int(meta.get("chunk_index", 0))`: absent defaults to 0; a string value
must parse as an integer or `ValueError` is raised. -/
def chunkIndexOfMeta (m : ChunkMeta) : Except RagError Int :=
  match metaGet m "chunk_index" with
  | none => .ok 0
  | some (.i v) => .ok v
  | some (.s v) =>
    match pyToInt? v with
    | some n => .ok n
    | none => .error (.valueError ("invalid literal for int with base 10: " ++ v))

/-- `str(meta.get("document_id", "unknown"))`. -/
def documentIdOfMeta (m : ChunkMeta) : String :=
  match metaGet m "document_id" with
  | none => "unknown"
  | some (.s v) => v
  | some (.i v) => toString v

/-- The result-building loop of `search` (lines 211-226): for each returned
document take its metadata (`metas[i] or {}`) and its distance
(`dists[i] if i < len(dists) else 1.0`), derive `similarity = 1 - distance`,
skip results below `min_similarity`, and rebuild a `DocumentChunk` from the
document text and metadata (whose `__post_init__` may raise). -/
def processResults (minSim : Rat) : List String → List ChunkMeta → List Rat →
    Except RagError (List (DocumentChunk × Rat))
  | [], _, _ => .ok []
  | d :: ds, ms, qs =>
    let meta := ms.headD []
    let distance := qs.headD 1
    let similarity := 1 - distance
    if similarity < minSim then
      processResults minSim ds ms.tail qs.tail
    else
      match chunkIndexOfMeta meta with
      | .error e => .error e
      | .ok ci =>
        match DocumentChunk.make d ci (documentIdOfMeta meta) meta none with
        | .error e => .error e
        | .ok chunk =>
          match processResults minSim ds ms.tail qs.tail with
          | .error e => .error e
          | .ok rest => .ok ((chunk, similarity) :: rest)

/-- `search` (lines 159-231): get or create the tenant collection, embed the
normalized query (the repository is wired with an embedding service by the
dependency container), drop any `tenant_id` key from the filters and pass
`where=None` when nothing remains (Chroma rejects `where={}`), let the index
rank the candidate entries by ascending cosine distance and return at most
`top_k`, then post-filter by `similarity = 1 - distance ≥ min_similarity`.
Whether the query runs by `query_embeddings` or by `query_texts` (empty
embedding) changes nothing observable in the model.  Every exception inside
the method body is re-raised as `VectorStoreException(str(e))`. -/
def search (w : ExtWorld) (query : SearchQuery) (tenant_id : String) (st : ChromaState) :
    Except RagError (List (DocumentChunk × Rat)) × ChromaState × List ExtCall :=
  let name := collectionName tenant_id
  let st1 := getOrCreateCollection st name
  let normq := query.normalizedQuery
  let embedded := generate_embedding w normq
  match embedded.1 with
  | .error e =>
    (.error (.vectorStoreError (errMsg e)), st1, .indexGetOrCreate name :: embedded.2)
  | .ok _qe =>
    let whereFilter := (query.filters.getD []).filter (fun kv => ¬ kv.1 = "tenant_id")
    let entries := getEntries st1 name
    let cand := if whereFilter.isEmpty then entries
                else entries.filter (fun e => matchesWhere whereFilter e.metadata)
    let selected := (sortAsc (w.distOf normq) cand).take query.top_k.toNat
    let docs := selected.map (fun e => e.document)
    let metas := selected.map (fun e => e.metadata)
    let dists := selected.map (w.distOf normq)
    match processResults query.min_similarity docs metas dists with
    | .error e =>
      (.error (.vectorStoreError (errMsg e)), st1,
        .indexGetOrCreate name :: embedded.2 ++ [.indexQuery name])
    | .ok results =>
      (.ok results, st1, .indexGetOrCreate name :: embedded.2 ++ [.indexQuery name])

/-- `delete_by_document_id`: get or create the tenant collection and delete
`where={"document_id": document_id}`; always returns `True` on a successful
round trip, whether or not anything matched. -/
def delete_by_document_id (document_id tenant_id : String) (st : ChromaState) :
    Except RagError Bool × ChromaState × List ExtCall :=
  let name := collectionName tenant_id
  let st1 := getOrCreateCollection st name
  let remaining := (getEntries st1 name).filter
    (fun e => ¬ metaGet e.metadata "document_id" = some (MetaVal.s document_id))
  (.ok true, setEntries st1 name remaining,
    [.indexGetOrCreate name, .indexDeleteWhere name])

/-- `delete_tenant_collection`: `client.delete_collection(name)`; Chroma
raises when the collection does not exist, surfaced as
`VectorStoreException`. -/
def delete_tenant_collection (tenant_id : String) (st : ChromaState) :
    Except RagError Bool × ChromaState × List ExtCall :=
  let name := collectionName tenant_id
  if hasCollection st name then
    (.ok true, removeCollection st name, [.indexDeleteCollection name])
  else
    (.error (.vectorStoreError ("Collection " ++ name ++ " does not exist")), st,
      [.indexDeleteCollection name])

/-- `count_chunks`: get or create the tenant collection; with a truthy
`user_id` count entries matching `{"user_id": user_id, "tenant_id":
tenant_id}`, otherwise count all. -/
def count_chunks (tenant_id : String) (user_id : Option String) (st : ChromaState) :
    Except RagError Nat × ChromaState × List ExtCall :=
  let name := collectionName tenant_id
  let st1 := getOrCreateCollection st name
  let entries := getEntries st1 name
  let selected :=
    match user_id with
    | some u =>
      if u = "" then entries
      else entries.filter (fun e =>
        matchesWhere [("user_id", MetaVal.s u), ("tenant_id", MetaVal.s tenant_id)] e.metadata)
    | none => entries
  (.ok selected.length, st1, [.indexGetOrCreate name, .indexGet name])

/-! ### `RAGService` (application/services/rag_service.py) -/

/-- The deployment configuration knobs `RAGService` and the routes read from
`core/config/settings.py`, at their defaults. -/
structure RagConfig where
  rag_chunk_size : Nat
  rag_chunk_overlap : Nat
  rag_top_k : Int
  rag_min_similarity : Rat
  rag_enabled : Bool
deriving Repr, DecidableEq

/-- `settings` defaults: chunk_size 500, chunk_overlap 50, top_k 5,
min_similarity 0.7, rag_enabled True. -/
def defaultSettings : RagConfig := ⟨500, 50, 5, mkRat 7 10, true⟩

/-- The chunk-construction loop of `ingest_text` (lines 88-100): one
`DocumentChunk` per split text, with index `idx` counting from 0 and the
fixed metadata `{"tenant_id": ..., "user_id": user_id or "unknown",
"title": title or ""}`; `DocumentChunk.__post_init__` may raise. -/
def buildChunks (tenant_id uid ttl document_id : String) :
    List String → Int → Except RagError (List DocumentChunk)
  | [], _ => .ok []
  | t :: ts, idx =>
    match DocumentChunk.make t idx document_id
        [("tenant_id", MetaVal.s tenant_id), ("user_id", MetaVal.s uid),
         ("title", MetaVal.s ttl)] none with
    | .error e => .error e
    | .ok c =>
      match buildChunks tenant_id uid ttl document_id ts (idx + 1) with
      | .error e => .error e
      | .ok cs => .ok (c :: cs)

/-- `for i, emb in enumerate(embeddings): chunks[i].embedding = emb` — when
the provider returned more vectors than there are chunks the loop indexes
past the end and raises `IndexError` (the already-mutated local chunks are
discarded); when it returned fewer, trailing chunks simply keep no
embedding. -/
def attachEmbeddings (chunks : List DocumentChunk) (embs : List (List Rat)) :
    Except RagError (List DocumentChunk) :=
  if chunks.length < embs.length then
    .error (.indexError "list index out of range")
  else
    .ok (attachGo chunks embs)
where
  attachGo : List DocumentChunk → List (List Rat) → List DocumentChunk
  | cs, [] => cs
  | [], _ => []
  | c :: cs, e :: es => { c with embedding := some e } :: attachGo cs es

/-- `ingest_text` (lines 45-112): build the `Document` (whose
`__post_init__` rejects empty content), split the text, build one chunk per
piece, embed all chunk contents in one batch, attach vector i to chunk i,
store via `add_chunks`, and return the number of chunks.  The `Document`
itself is only read back through `doc.id or document_id`, which always
equals `document_id` (the constructor stored exactly that id, and when both
are the empty string the `or` still yields `document_id`). -/
def ingest_text (w : ExtWorld) (cfg : RagConfig) (tenant_id document_id text : String)
    (user_id title : Option String) (metadata : ChunkMeta) (st : ChromaState) :
    Except RagError Nat × ChromaState × List ExtCall :=
  let docMeta : ChunkMeta :=
    metadata ++ [("tenant_id", MetaVal.s tenant_id),
                 ("user_id", MetaVal.s (orDefault user_id "unknown"))]
  match Document.make text user_id title (some document_id) docMeta with
  | .error e => (.error e, st, [])
  | .ok _doc =>
    let texts := splitText cfg.rag_chunk_size cfg.rag_chunk_overlap text
    match buildChunks tenant_id (orDefault user_id "unknown") (orDefault title "")
        document_id texts 0 with
    | .error e => (.error e, st, [])
    | .ok chunks =>
      let batched := generate_embeddings_batch w (chunks.map (fun c => c.content))
      match batched.1 with
      | .error e => (.error e, st, batched.2)
      | .ok embeddings =>
        match attachEmbeddings chunks embeddings with
        | .error e => (.error e, st, batched.2)
        | .ok chunks2 =>
          match add_chunks chunks2 tenant_id st with
          | (.error e, st2, addLog) => (.error e, st2, batched.2 ++ addLog)
          | (.ok _, st2, addLog) => (.ok chunks2.length, st2, batched.2 ++ addLog)

/-- `RAGService.delete_document`: pass-through to
`delete_by_document_id`. -/
def delete_document (document_id tenant_id : String) (st : ChromaState) :
    Except RagError Bool × ChromaState × List ExtCall :=
  delete_by_document_id document_id tenant_id st

/-- `RAGService.retrieve` (lines 127-160): build the optional `user_id`
filter, resolve the effective `top_k` (`top_k or settings.rag_top_k` — a
Python `or`, so `None` and `0` both fall back) and the effective
`min_similarity` (`... if ... is not None else settings.rag_min_similarity`),
construct the `SearchQuery` (validation raises here, before any network
call), then delegate to the vector store `search`. -/
def retrieve (w : ExtWorld) (cfg : RagConfig) (query_text tenant_id : String)
    (top_k : Option Int) (user_id : Option String) (min_similarity : Option Rat)
    (st : ChromaState) :
    Except RagError (List (DocumentChunk × Rat)) × ChromaState × List ExtCall :=
  let filters : ChunkMeta :=
    match user_id with
    | some u => if u = "" then [] else [("user_id", MetaVal.s u)]
    | none => []
  let tkEff : Int :=
    match top_k with
    | none => cfg.rag_top_k
    | some k => if k = 0 then cfg.rag_top_k else k
  let msEff : Rat :=
    match min_similarity with
    | none => cfg.rag_min_similarity
    | some m => m
  match SearchQuery.make query_text tkEff (some filters) msEff with
  | .error e => (.error e, st, [])
  | .ok sq => search w sq tenant_id st

/-- `RAGService.count_chunks`: pass-through to the vector store count. -/
def count_chunks_service (tenant_id : String) (user_id : Option String) (st : ChromaState) :
    Except RagError Nat × ChromaState × List ExtCall :=
  count_chunks tenant_id user_id st

/-! ### HTTP boundary (routes/rag_routes.py) -/

/-- The methods the `RAGService` class defines (rag_service.py lines
45-173); Python resolves `rag.<name>` against this set at call time and
raises `AttributeError` on a miss. -/
def ragServiceMethods : List String :=
  ["ingest_text", "delete_document", "retrieve", "count_chunks"]

/-- `DELETE /api/rag/tenant` (lines 298-325): require a tenant id, reject
when RAG is disabled by configuration, then call `rag.delete_tenant_data
(tenant_id)`.  `RAGService` defines no `delete_tenant_data` method, so the
dynamic attribute lookup raises `AttributeError`; the guarded branch shows
what would run if the method existed (the repository-level collection
delete). -/
def delete_tenant_route (cfg : RagConfig) (tenant_id : Option String) (st : ChromaState) :
    Except RagError Bool × ChromaState × List ExtCall :=
  match tenant_id with
  | none => (.error (.apiError 400 "MISSING_TENANT_ID"), st, [])
  | some t =>
    if t = "" then (.error (.apiError 400 "MISSING_TENANT_ID"), st, [])
    else if ¬ cfg.rag_enabled then (.error (.apiError 503 "RAG_DISABLED"), st, [])
    else if "delete_tenant_data" ∈ ragServiceMethods then
      delete_tenant_collection t st
    else
      (.error (.attributeError
        "RAGService object has no attribute delete_tenant_data"), st, [])

/-! ### Concrete external worlds used by witnesses and counterexamples -/

/-- A deterministic healthy world: every text embeds to the vector `[1]`,
and the index server reports cosine distance 0 for every stored entry (as it
does when query and document vectors coincide). -/
def constWorld : ExtWorld :=
  ⟨fun ts => .ok (ts.map (fun _ => [1])), fun _ _ => 0⟩

/-- A world whose embedding provider is down: every batch call fails. -/
def failWorld : ExtWorld :=
  ⟨fun _ => .error "provider unreachable", fun _ _ => 0⟩

/-- A misbehaving provider that answers every batch with an empty vector
list (fewer vectors than chunks). -/
def emptyBatchWorld : ExtWorld :=
  ⟨fun _ => .ok [], fun _ _ => 0⟩

/-- A misbehaving provider that answers every batch with two vectors (more
vectors than chunks for a one-chunk document). -/
def twoVecWorld : ExtWorld :=
  ⟨fun _ => .ok [[1], [2]], fun _ _ => 0⟩

/-! ### Library lemmas about the embedded operations -/

theorem lookup_cons_self (n : String) (es : List ChromaEntry) (tl : ChromaState) :
    ((n, es) :: tl).lookup n = some es := by
  simp [List.lookup]

theorem lookup_cons_ne {n m : String} (es : List ChromaEntry) (tl : ChromaState)
    (h : ¬ m = n) : ((n, es) :: tl).lookup m = tl.lookup m := by
  have hb : (m == n) = false := by simpa using h
  simp [List.lookup, hb]

theorem getEntries_setEntries_self (st : ChromaState) (n : String) (es : List ChromaEntry) :
    getEntries (setEntries st n es) n = es := by
  induction st with
  | nil => simp [setEntries, getEntries, lookup_cons_self]
  | cons hd tl ih =>
    obtain ⟨n', old⟩ := hd
    by_cases h : n' = n
    · subst h; simp [setEntries, getEntries, lookup_cons_self]
    · unfold setEntries
      rw [if_neg h]
      unfold getEntries
      rw [lookup_cons_ne old _ (fun hh => h hh.symm)]
      exact ih

theorem getEntries_setEntries_ne (st : ChromaState) (n m : String) (es : List ChromaEntry)
    (h : ¬ m = n) : getEntries (setEntries st n es) m = getEntries st m := by
  induction st with
  | nil =>
    unfold setEntries getEntries
    rw [lookup_cons_ne es [] h]
  | cons hd tl ih =>
    obtain ⟨n', old⟩ := hd
    by_cases h' : n' = n
    · subst h'
      unfold setEntries
      rw [if_pos rfl]
      unfold getEntries
      rw [lookup_cons_ne es tl h, lookup_cons_ne old tl h]
    · unfold setEntries
      rw [if_neg h']
      by_cases hm : m = n'
      · subst hm
        unfold getEntries
        rw [lookup_cons_self, lookup_cons_self]
      · unfold getEntries
        rw [lookup_cons_ne old _ hm, lookup_cons_ne old tl hm]
        exact ih

theorem lookup_append_of_none {st : ChromaState} {n : String}
    (h : st.lookup n = none) (tail : ChromaState) :
    (st ++ tail).lookup n = tail.lookup n := by
  induction st with
  | nil => simp
  | cons hd tl ih =>
    obtain ⟨n', es⟩ := hd
    by_cases hn : n = n'
    · subst hn; rw [lookup_cons_self] at h; simp at h
    · rw [lookup_cons_ne es tl hn] at h
      rw [List.cons_append, lookup_cons_ne es (tl ++ tail) hn]
      exact ih h

theorem lookup_append_of_some {st : ChromaState} {n : String} {es : List ChromaEntry}
    (h : st.lookup n = some es) (tail : ChromaState) :
    (st ++ tail).lookup n = some es := by
  induction st with
  | nil => simp [List.lookup] at h
  | cons hd tl ih =>
    obtain ⟨n', es'⟩ := hd
    by_cases hn : n = n'
    · subst hn
      rw [lookup_cons_self] at h
      rw [List.cons_append, lookup_cons_self]
      exact h
    · rw [lookup_cons_ne es' tl hn] at h
      rw [List.cons_append, lookup_cons_ne es' (tl ++ tail) hn]
      exact ih h

theorem lookup_none_of_not_hasCollection {st : ChromaState} {n : String}
    (h : ¬ hasCollection st n = true) : st.lookup n = none := by
  unfold hasCollection at h
  cases hl : st.lookup n with
  | none => rfl
  | some es => rw [hl] at h; simp at h

theorem getEntries_getOrCreate (st : ChromaState) (n m : String) :
    getEntries (getOrCreateCollection st n) m = getEntries st m := by
  unfold getOrCreateCollection
  by_cases h : hasCollection st n = true
  · simp [h]
  · have hnone := lookup_none_of_not_hasCollection h
    simp only [h, if_false, Bool.false_eq_true]
    unfold getEntries
    cases hl : st.lookup m with
    | none =>
      rw [lookup_append_of_none hl]
      by_cases hm : m = n
      · subst hm; rw [lookup_cons_self]
      · rw [lookup_cons_ne [] [] hm]; simp [List.lookup]
    | some es => rw [lookup_append_of_some hl]

theorem lookup_getOrCreate_self (st : ChromaState) (n : String) :
    (getOrCreateCollection st n).lookup n = some (getEntries st n) := by
  unfold getOrCreateCollection
  by_cases h : hasCollection st n = true
  · have hh := h
    unfold hasCollection at hh
    cases hl : st.lookup n with
    | none => rw [hl] at hh; simp at hh
    | some es => simp [h, getEntries, hl]
  · have hnone := lookup_none_of_not_hasCollection h
    simp only [h, if_false, Bool.false_eq_true]
    rw [lookup_append_of_none hnone, lookup_cons_self]
    unfold getEntries
    rw [hnone]

theorem mem_insertAsc {key : ChromaEntry → Rat} {e a : ChromaEntry} {l : List ChromaEntry} :
    a ∈ insertAsc key e l ↔ a = e ∨ a ∈ l := by
  induction l with
  | nil => simp [insertAsc]
  | cons x xs ih =>
    unfold insertAsc
    by_cases h : key e ≤ key x
    · simp [h]
    · simp only [if_neg h, List.mem_cons, ih]
      tauto

theorem mem_sortAsc {key : ChromaEntry → Rat} {a : ChromaEntry} {l : List ChromaEntry} :
    a ∈ sortAsc key l ↔ a ∈ l := by
  induction l with
  | nil => simp [sortAsc]
  | cons x xs ih =>
    unfold sortAsc
    rw [mem_insertAsc, ih]
    simp

theorem searchQuery_make_eq_ok {q : String} {tk : Int} {f : Option ChunkMeta} {ms : Rat}
    {sq : SearchQuery} (h : SearchQuery.make q tk f ms = .ok sq) :
    sq = ⟨q, tk, f, ms⟩ ∧ ¬ pyStrip q = "" ∧ 0 < tk ∧ 0 ≤ ms ∧ ms ≤ 1 := by
  unfold SearchQuery.make at h
  by_cases h1 : q = "" ∨ pyStrip q = ""
  · rw [if_pos h1] at h; cases h
  · rw [if_neg h1] at h
    by_cases h2 : tk ≤ 0
    · rw [if_pos h2] at h; cases h
    · rw [if_neg h2] at h
      by_cases h3 : ¬ (0 ≤ ms ∧ ms ≤ 1)
      · rw [if_pos h3] at h; cases h
      · rw [if_neg h3] at h
        cases h
        have h4 := not_not.mp h3
        exact ⟨rfl, fun ht => h1 (Or.inr ht), by omega, h4.1, h4.2⟩

theorem searchQuery_make_eq_error {q : String} {tk : Int} {f : Option ChunkMeta} {ms : Rat}
    {e : RagError} (h : SearchQuery.make q tk f ms = .error e) :
    ∃ m, e = RagError.valueError m := by
  unfold SearchQuery.make at h
  by_cases h1 : q = "" ∨ pyStrip q = ""
  · rw [if_pos h1] at h; exact ⟨_, by cases h; rfl⟩
  · rw [if_neg h1] at h
    by_cases h2 : tk ≤ 0
    · rw [if_pos h2] at h; exact ⟨_, by cases h; rfl⟩
    · rw [if_neg h2] at h
      by_cases h3 : ¬ (0 ≤ ms ∧ ms ≤ 1)
      · rw [if_pos h3] at h; exact ⟨_, by cases h; rfl⟩
      · rw [if_neg h3] at h; cases h

theorem documentChunk_make_eq_ok {content : String} {ci : Int} {did : String}
    {md : ChunkMeta} {emb : Option (List Rat)} {c : DocumentChunk}
    (h : DocumentChunk.make content ci did md emb = .ok c) :
    c = ⟨content, ci, did, md, emb⟩ := by
  unfold DocumentChunk.make at h
  by_cases h1 : content = ""
  · rw [if_pos h1] at h; cases h
  · rw [if_neg h1] at h
    by_cases h2 : ci < 0
    · rw [if_pos h2] at h; cases h
    · rw [if_neg h2] at h; cases h; rfl

theorem processResults_sim_ge {minSim : Rat} {ds : List String} {ms : List ChunkMeta}
    {qs : List Rat} {res : List (DocumentChunk × Rat)}
    (h : processResults minSim ds ms qs = .ok res) :
    ∀ c s, (c, s) ∈ res → minSim ≤ s := by
  induction ds generalizing ms qs res with
  | nil =>
    unfold processResults at h
    cases h
    intro c s hmem
    cases hmem
  | cons d ds ih =>
    simp only [processResults] at h
    split at h
    · exact ih h
    · rename_i hlt
      split at h
      · cases h
      · rename_i ci hci
        split at h
        · cases h
        · rename_i chunk hmk
          split at h
          · cases h
          · rename_i rest hrest
            cases h
            intro c s hmem
            rcases List.mem_cons.mp hmem with heq | htail
            · cases heq
              exact le_of_not_lt hlt
            · exact ih hrest c s htail

theorem processResults_content_mem {minSim : Rat} {ds : List String} {ms : List ChunkMeta}
    {qs : List Rat} {res : List (DocumentChunk × Rat)}
    (h : processResults minSim ds ms qs = .ok res) :
    ∀ c s, (c, s) ∈ res → c.content ∈ ds := by
  induction ds generalizing ms qs res with
  | nil =>
    unfold processResults at h
    cases h
    intro c s hmem
    cases hmem
  | cons d ds ih =>
    simp only [processResults] at h
    split at h
    · intro c s hmem
      exact List.mem_cons_of_mem d (ih h c s hmem)
    · split at h
      · cases h
      · rename_i ci hci
        split at h
        · cases h
        · rename_i chunk hmk
          split at h
          · cases h
          · rename_i rest hrest
            cases h
            intro c s hmem
            rcases List.mem_cons.mp hmem with heq | htail
            · cases heq
              rw [documentChunk_make_eq_ok hmk]
              exact List.mem_cons_self d ds
            · exact List.mem_cons_of_mem d (ih hrest c s htail)

theorem search_ok_sim_ge {w : ExtWorld} {sq : SearchQuery} {tenant : String}
    {st st' : ChromaState} {results : List (DocumentChunk × Rat)} {log : List ExtCall}
    (h : search w sq tenant st = (.ok results, st', log)) :
    ∀ c s, (c, s) ∈ results → sq.min_similarity ≤ s := by
  simp only [search] at h
  split at h
  · exact absurd h (by simp)
  · split at h
    · exact absurd h (by simp)
    · rename_i res hproc
      simp only [Prod.mk.injEq, Except.ok.injEq] at h
      obtain ⟨hres, _, _⟩ := h
      subst hres
      exact processResults_sim_ge hproc

theorem search_ok_content_mem {w : ExtWorld} {sq : SearchQuery} {tenant : String}
    {st st' : ChromaState} {results : List (DocumentChunk × Rat)} {log : List ExtCall}
    (h : search w sq tenant st = (.ok results, st', log)) :
    ∀ c s, (c, s) ∈ results →
      c.content ∈ (getEntries st (collectionName tenant)).map (fun e => e.document) := by
  simp only [search] at h
  split at h
  · exact absurd h (by simp)
  · split at h
    · exact absurd h (by simp)
    · rename_i res hproc
      simp only [Prod.mk.injEq, Except.ok.injEq] at h
      obtain ⟨hres, _, _⟩ := h
      subst hres
      intro c s hmem
      have hdoc := processResults_content_mem hproc c s hmem
      rw [List.mem_map] at hdoc
      obtain ⟨en, hen, hdoceq⟩ := hdoc
      have hen2 : en ∈ getEntries st (collectionName tenant) := by
        have htake := List.take_subset sq.top_k.toNat _ hen
        have hsort := mem_sortAsc.mp htake
        rw [getEntries_getOrCreate] at hsort
        split at hsort
        · exact hsort
        · exact List.mem_of_mem_filter hsort
      rw [List.mem_map]
      exact ⟨en, hen2, hdoceq⟩

theorem string_length_eq_zero_iff (s : String) : s.length = 0 ↔ s = "" := by
  constructor
  · intro h
    cases s with
    | mk data =>
      cases data with
      | nil => rfl
      | cons c cs => simp [String.length] at h
  · intro h; subst h; rfl

theorem mem_reattach_ne_empty {sep : String} (hsep : ¬ sep = "") :
    ∀ {ps : List String} {p : String}, p ∈ reattach sep ps → ¬ p = "" := by
  intro ps
  induction ps with
  | nil => intro p hp; simp [reattach] at hp
  | cons a rest ih =>
    intro p hp
    cases rest with
    | nil =>
      by_cases ha : a = ""
      · simp [reattach, ha] at hp
      · simp [reattach, ha] at hp; subst hp; exact ha
    | cons b rest2 =>
      simp only [reattach] at hp
      rcases List.mem_cons.mp hp with heq | htail
      · subst heq
        intro hcontra
        have h0 := congrArg String.length hcontra
        rw [String.length_append] at h0
        have hz : ("" : String).length = 0 := rfl
        rw [hz] at h0
        exact hsep ((string_length_eq_zero_iff sep).mp (by omega))
      · exact ih htail

theorem mem_hardCut_ne_empty {cs step : Nat} :
    ∀ {fuel : Nat} {text p : String}, p ∈ hardCut cs step fuel text → ¬ p = "" := by
  intro fuel
  induction fuel with
  | zero =>
    intro text p hp
    by_cases h : text = ""
    · simp [hardCut, h] at hp
    · simp [hardCut, h] at hp; subst hp; exact h
  | succ fuel ih =>
    intro text p hp
    simp only [hardCut] at hp
    by_cases hlen : text.length ≤ cs
    · rw [if_pos hlen] at hp
      by_cases h : text = ""
      · simp [h] at hp
      · simp [h] at hp; subst hp; exact h
    · rw [if_neg hlen] at hp
      by_cases hpiece : text.take cs = ""
      · simp [hpiece] at hp
      · simp only [hpiece, if_neg, ite_false] at hp
        rcases List.mem_cons.mp hp with heq | htail
        · subst heq; exact hpiece
        · exact ih htail

theorem mem_recSplit_ne_empty {cs ov : Nat} :
    ∀ {seps : List String} {text p : String},
      (∀ sep ∈ seps, ¬ sep = "") → p ∈ recSplit cs ov seps text → ¬ p = "" := by
  intro seps
  induction seps with
  | nil =>
    intro text p _ hp
    exact mem_hardCut_ne_empty hp
  | cons sep rest ih =>
    intro text p hseps hp
    simp only [recSplit] at hp
    by_cases hlen : text.length ≤ cs
    · rw [if_pos hlen] at hp
      by_cases h : text = ""
      · simp [h] at hp
      · simp [h] at hp; subst hp; exact h
    · rw [if_neg hlen] at hp
      by_cases hocc : (pySplitOn text sep).length ≥ 2
      · rw [if_pos hocc] at hp
        rw [List.mem_flatMap] at hp
        obtain ⟨piece, hpiece, hp2⟩ := hp
        by_cases hfit : piece.length ≤ cs
        · rw [if_pos hfit] at hp2
          by_cases hpe : piece = ""
          · simp [hpe] at hp2
          · simp [hpe] at hp2; subst hp2; exact hpe
        · rw [if_neg hfit] at hp2
          exact ih (fun s hs => hseps s (List.mem_cons_of_mem sep hs)) hp2
      · rw [if_neg hocc] at hp
        exact ih (fun s hs => hseps s (List.mem_cons_of_mem sep hs)) hp

theorem mem_splitText_ne_empty {chunkSize overlap : Nat} {text p : String}
    (hp : p ∈ splitText chunkSize overlap text) : ¬ p = "" := by
  unfold splitText at hp
  by_cases hws : pyStrip text = ""
  · simp [hws] at hp
  · rw [if_neg hws] at hp
    by_cases hlen : text.length ≤ chunkSize
    · rw [if_pos hlen] at hp
      simp at hp
      subst hp
      intro hcontra
      subst hcontra
      exact hws (by decide)
    · rw [if_neg hlen] at hp
      exact mem_recSplit_ne_empty (by decide) hp

theorem buildChunks_ok (tenant uid ttl did : String) :
    ∀ (texts : List String) (idx : Int), 0 ≤ idx → (∀ t ∈ texts, ¬ t = "") →
      ∃ cs, buildChunks tenant uid ttl did texts idx = .ok cs ∧
        cs.map (fun c => c.content) = texts ∧
        cs.length = texts.length ∧
        ∀ c ∈ cs, c.metadata =
          [("tenant_id", MetaVal.s tenant), ("user_id", MetaVal.s uid),
           ("title", MetaVal.s ttl)] ∧ c.document_id = did ∧ c.embedding = none := by
  intro texts
  induction texts with
  | nil =>
    intro idx _ _
    exact ⟨[], rfl, rfl, rfl, by intro c hc; cases hc⟩
  | cons t ts ih =>
    intro idx hidx hne
    obtain ⟨cs, hcs, hmap, hlen, hmeta⟩ :=
      ih (idx + 1) (by omega) (fun x hx => hne x (List.mem_cons_of_mem t hx))
    have ht : ¬ t = "" := hne t (List.mem_cons_self t ts)
    refine ⟨⟨t, idx, did,
      [("tenant_id", MetaVal.s tenant), ("user_id", MetaVal.s uid),
       ("title", MetaVal.s ttl)], none⟩ :: cs, ?_, ?_, ?_, ?_⟩
    · unfold buildChunks
      unfold DocumentChunk.make
      rw [if_neg ht, if_neg (by omega), hcs]
    · simp [hmap]
    · simp [hlen]
    · intro c hc
      rcases List.mem_cons.mp hc with heq | htail
      · subst heq; exact ⟨rfl, rfl, rfl⟩
      · exact hmeta c htail

theorem attachGo_mem {cs : List DocumentChunk} {es : List (List Rat)} {c2 : DocumentChunk}
    (h : c2 ∈ attachEmbeddings.attachGo cs es) :
    ∃ c ∈ cs, c2.content = c.content ∧ c2.metadata = c.metadata ∧
      c2.document_id = c.document_id ∧ c2.chunk_index = c.chunk_index := by
  induction cs generalizing es with
  | nil =>
    cases es with
    | nil => cases h
    | cons e es' => cases h
  | cons c cs' ih =>
    cases es with
    | nil =>
      simp only [attachEmbeddings.attachGo] at h
      exact ⟨c2, h, rfl, rfl, rfl, rfl⟩
    | cons e es' =>
      simp only [attachEmbeddings.attachGo] at h
      rcases List.mem_cons.mp h with heq | htail
      · subst heq
        exact ⟨c, List.mem_cons_self c cs', rfl, rfl, rfl, rfl⟩
      · obtain ⟨c', hc', hrest⟩ := ih htail
        exact ⟨c', List.mem_cons_of_mem c hc', hrest⟩

theorem mem_buildEntries_metadata :
    ∀ {ids ds : List String} {ms : List ChunkMeta}
      {embs : Option (List (Option (List Rat)))} {e : ChromaEntry},
      e ∈ buildEntries ids ds ms embs → e.metadata ∈ ms := by
  intro ids
  induction ids with
  | nil => intro ds ms embs e h; cases h
  | cons id ids' ih =>
    intro ds ms embs e h
    cases ds with
    | nil => cases h
    | cons d ds' =>
      cases ms with
      | nil => cases h
      | cons m ms' =>
        simp only [buildEntries] at h
        rcases List.mem_cons.mp h with heq | htail
        · subst heq; exact List.mem_cons_self m ms'
        · exact List.mem_cons_of_mem m (ih htail)

theorem add_chunks_getEntries_ne (cs : List DocumentChunk) (t : String) (st : ChromaState)
    (name : String) (h : ¬ name = collectionName t) :
    getEntries (add_chunks cs t st).2.1 name = getEntries st name := by
  cases cs with
  | nil => rfl
  | cons c0 rest =>
    simp only [add_chunks]
    rw [getEntries_setEntries_ne _ _ _ _ h, getEntries_getOrCreate]

theorem ingest_getEntries_ne (w : ExtWorld) (cfg : RagConfig)
    (tenant did text : String) (uid ttl : Option String) (md : ChunkMeta)
    (st : ChromaState) (name : String) (h : ¬ name = collectionName tenant) :
    getEntries (ingest_text w cfg tenant did text uid ttl md st).2.1 name
      = getEntries st name := by
  simp only [ingest_text]
  split
  · rfl
  · split
    · rfl
    · rename_i chunks hchunks
      split
      · rfl
      · split
        · rfl
        · rename_i chunks2 hatt
          split
          · rename_i e st2 addLog heq
            have hst : (add_chunks chunks2 tenant st).2.1 = st2 := by rw [heq]
            rw [← hst]
            exact add_chunks_getEntries_ne chunks2 tenant st name h
          · rename_i v st2 addLog heq
            have hst : (add_chunks chunks2 tenant st).2.1 = st2 := by rw [heq]
            rw [← hst]
            exact add_chunks_getEntries_ne chunks2 tenant st name h

theorem add_chunks_getEntries_self (cs : List DocumentChunk) (t : String) (st : ChromaState) :
    getEntries (add_chunks cs t st).2.1 (collectionName t) =
      getEntries st (collectionName t) ++
        (match cs with
         | [] => []
         | c0 :: _ =>
           buildEntries (buildIds cs) (cs.map (fun c => c.content)) (buildMetadatas cs t)
             (if c0.embedding.isSome then some (cs.map (fun c => c.embedding)) else none)) := by
  cases cs with
  | nil => simp [add_chunks]
  | cons c0 rest =>
    simp only [add_chunks]
    rw [getEntries_setEntries_self, getEntries_getOrCreate]

theorem buildChunks_mem_metadata {tenant uid ttl did : String} :
    ∀ {texts : List String} {idx : Int} {cs : List DocumentChunk},
      buildChunks tenant uid ttl did texts idx = .ok cs → ∀ c ∈ cs,
        c.metadata = [("tenant_id", MetaVal.s tenant), ("user_id", MetaVal.s uid),
          ("title", MetaVal.s ttl)] := by
  intro texts
  induction texts with
  | nil =>
    intro idx cs h c hc
    cases h
    cases hc
  | cons t ts ih =>
    intro idx cs h c hc
    simp only [buildChunks] at h
    split at h
    · cases h
    · rename_i c0 hmk
      split at h
      · cases h
      · rename_i cs' hcs
        cases h
        rcases List.mem_cons.mp hc with heq | htail
        · subst heq
          rw [documentChunk_make_eq_ok hmk]
        · exact ih hcs c htail

theorem retrieve_ok_content_mem {w : ExtWorld} {cfg : RagConfig} {qt tenant : String}
    {tk : Option Int} {uid : Option String} {ms : Option Rat} {st st' : ChromaState}
    {results : List (DocumentChunk × Rat)} {log : List ExtCall}
    (h : retrieve w cfg qt tenant tk uid ms st = (.ok results, st', log)) :
    ∀ c s, (c, s) ∈ results →
      c.content ∈ (getEntries st (collectionName tenant)).map (fun e => e.document) := by
  simp only [retrieve] at h
  split at h
  · exact absurd h (by simp)
  · exact search_ok_content_mem h

/-- Symbolic evaluation of `search` when the tenant collection holds exactly
one entry that clears the threshold: the entry comes back rebuilt as a chunk
with similarity `1 - distance`. -/
theorem search_eval_single {w : ExtWorld} {sq : SearchQuery} {tenant : String}
    {st : ChromaState} {en : ChromaEntry} {qe : List Rat} {ci : Int} {chunk : DocumentChunk}
    (hemb : (generate_embedding w sq.normalizedQuery).1 = .ok qe)
    (hwf : (sq.filters.getD []).filter (fun kv => ¬ kv.1 = "tenant_id") = [])
    (hent : getEntries st (collectionName tenant) = [en])
    (htk : 1 ≤ sq.top_k.toNat)
    (hth : ¬ (1 - w.distOf sq.normalizedQuery en < sq.min_similarity))
    (hci : chunkIndexOfMeta en.metadata = .ok ci)
    (hmk : DocumentChunk.make en.document ci (documentIdOfMeta en.metadata)
      en.metadata none = .ok chunk) :
    search w sq tenant st =
      (.ok [(chunk, 1 - w.distOf sq.normalizedQuery en)],
       getOrCreateCollection st (collectionName tenant),
       ExtCall.indexGetOrCreate (collectionName tenant) ::
         (generate_embedding w sq.normalizedQuery).2
           ++ [ExtCall.indexQuery (collectionName tenant)]) := by
  obtain ⟨n, hn⟩ : ∃ n, sq.top_k.toNat = n + 1 := ⟨sq.top_k.toNat - 1, by omega⟩
  simp only [search, hemb, hwf, getEntries_getOrCreate, hent, List.isEmpty_nil, if_true,
    sortAsc, insertAsc, hn, List.take_succ_cons, List.take_nil, List.map_cons, List.map_nil,
    processResults, List.headD_cons, List.tail_cons, hci, hmk]
  rw [if_neg hth]

/-- Symbolic evaluation of `search` when the tenant collection is empty (or
was only just lazily created): no results and no error. -/
theorem search_eval_nil {w : ExtWorld} {sq : SearchQuery} {tenant : String}
    {st : ChromaState} {qe : List Rat}
    (hemb : (generate_embedding w sq.normalizedQuery).1 = .ok qe)
    (hent : getEntries st (collectionName tenant) = []) :
    search w sq tenant st =
      (.ok [], getOrCreateCollection st (collectionName tenant),
       ExtCall.indexGetOrCreate (collectionName tenant) ::
         (generate_embedding w sq.normalizedQuery).2
           ++ [ExtCall.indexQuery (collectionName tenant)]) := by
  simp only [search, hemb, getEntries_getOrCreate, hent, List.filter_nil, ite_self,
    sortAsc, List.take_nil, List.map_nil, processResults]

/-- Bridge from `retrieve` to `search_eval_single`: a filter-free call with
explicit positive `top_k` and explicit threshold, against a collection
holding exactly one entry that clears the threshold, returns that entry as
a chunk with similarity `1 - distance`. -/
theorem retrieve_eval_hit (w : ExtWorld) (cfg : RagConfig) (qt tenant : String)
    (k : Int) (μ : Rat) (st : ChromaState) (en : ChromaEntry) (qe : List Rat)
    (ci : Int) (chunk : DocumentChunk)
    (hk0 : ¬ k = 0)
    (hsq : SearchQuery.make qt k (some []) μ = .ok ⟨qt, k, some [], μ⟩)
    (hemb : (generate_embedding w
      (SearchQuery.normalizedQuery ⟨qt, k, some [], μ⟩)).1 = .ok qe)
    (hent : getEntries st (collectionName tenant) = [en])
    (htk : 1 ≤ k.toNat)
    (hth : ¬ (1 - w.distOf (SearchQuery.normalizedQuery ⟨qt, k, some [], μ⟩) en < μ))
    (hci : chunkIndexOfMeta en.metadata = .ok ci)
    (hmk : DocumentChunk.make en.document ci (documentIdOfMeta en.metadata)
      en.metadata none = .ok chunk) :
    retrieve w cfg qt tenant (some k) none (some μ) st
      = (.ok [(chunk, 1 - w.distOf (SearchQuery.normalizedQuery ⟨qt, k, some [], μ⟩) en)],
         getOrCreateCollection st (collectionName tenant),
         ExtCall.indexGetOrCreate (collectionName tenant) ::
           (generate_embedding w (SearchQuery.normalizedQuery ⟨qt, k, some [], μ⟩)).2
             ++ [ExtCall.indexQuery (collectionName tenant)]) := by
  have hs := search_eval_single hemb (by simp) hent htk hth hci hmk
  simp only [retrieve]
  rw [if_neg hk0]
  simp only [hsq]
  rw [hs]

/-! ### Claim theorems -/

/-- Claim C2, counterexample: calling `ingest_text` with the empty string
does not return 0 without error — `Document.__post_init__` raises
`ValueError` (rag_service.py line 71 / document.py lines 67-70) before any
chunking, embedding or index call happens. -/
theorem c2_counterexample :
    ingest_text constWorld defaultSettings "t1" "d1" "" none none [] emptyChroma
      = (.error (.valueError "El contenido del documento no puede estar vacio"),
         emptyChroma, []) ∧
    ¬ (ingest_text constWorld defaultSettings "t1" "d1" "" none none []
        emptyChroma).1 = .ok 0 := by
  decide

/-- Claim C2, amended: for every tenant and document id, `ingest_text` on a
NON-empty whitespace-only text returns 0, changes no state, performs no
external call and raises no error (the splitter yields no chunks, the batch
embedding short-circuits on an empty list, and `add_chunks` returns early);
an entirely empty text instead raises `ValueError` from the `Document`
constructor. -/
theorem c2_ingest_whitespace_amended (w : ExtWorld) (cfg : RagConfig)
    (tenant did text : String) (uid ttl : Option String) (md : ChunkMeta)
    (st : ChromaState) (hne : ¬ text = "") (hws : pyStrip text = "") :
    ingest_text w cfg tenant did text uid ttl md st = (.ok 0, st, []) := by
  simp [ingest_text, Document.make, splitText, buildChunks, generate_embeddings_batch,
    attachEmbeddings, attachEmbeddings.attachGo, add_chunks, hne, hws]

/-- Witness for the amended C2, with the embedding provider down: the
whitespace-only ingestion still returns 0 with no error and no provider
call. -/
theorem c2_ingest_whitespace_amended_witness :
    ingest_text failWorld defaultSettings "t" "d" " " none none [] emptyChroma
      = (.ok 0, emptyChroma, []) :=
  c2_ingest_whitespace_amended failWorld defaultSettings "t" "d" " " none none []
    emptyChroma (by decide) (by decide)

/-- Claim C9, counterexample: `" "` is a non-empty text shorter than the
default `chunk_size` 500, yet the splitter returns zero chunks (whitespace
is stripped — section 4.4 edge-case policy), not one chunk equal to the
input. -/
theorem c9_counterexample :
    splitText 500 50 " " = [] ∧ ¬ (" " : String) = "" ∧ (" " : String).length < 500 ∧
    ¬ splitText 500 50 " " = [" "] := by
  decide

/-- Claim C9, amended: every text containing at least one non-whitespace
character and shorter than `chunk_size` splits into exactly one chunk equal
to the input; a whitespace-only text splits into zero chunks. -/
theorem c9_split_short_amended (chunkSize overlap : Nat) (text : String)
    (hws : ¬ pyStrip text = "") (hlen : text.length < chunkSize) :
    splitText chunkSize overlap text = [text] := by
  unfold splitText
  rw [if_neg hws, if_pos (le_of_lt hlen)]

/-- Witness for the amended C9 at `"hello"` with the default configuration. -/
theorem c9_split_short_amended_witness : splitText 500 50 "hello" = ["hello"] :=
  c9_split_short_amended 500 50 "hello" (by decide) (by decide)

/-- Claim C3, counterexample: with a provider that answers the batch call
with zero vectors for a two-chunk document (a length mismatch), `ingest_text`
does not fail — it reports 2 chunks ingested and both chunks are stored in
the index without a provider vector. -/
theorem c3_counterexample :
    (ingest_text emptyBatchWorld ⟨5, 0, 5, 0, true⟩ "t1" "d1" "aaa bbb" none none []
      emptyChroma).1 = .ok 2 ∧
    (getEntries (ingest_text emptyBatchWorld ⟨5, 0, 5, 0, true⟩ "t1" "d1" "aaa bbb"
        none none [] emptyChroma).2.1 (collectionName "t1")).map (fun e => e.embedding)
      = [none, none] := by
  decide

/-- Claim C3, amended: the mismatch is detected only in one direction.  When
the provider returns MORE vectors than chunks, the attachment loop indexes
past the end of the chunk list, `IndexError` propagates and nothing is
stored; when it returns fewer (see the counterexample) the chunks are stored
without vectors and no error is raised. -/
theorem c3_embedding_mismatch_amended (w : ExtWorld) (cfg : RagConfig)
    (tenant did text : String) (uid ttl : Option String) (md : ChunkMeta)
    (st : ChromaState) (es : List (List Rat)) (hne : ¬ text = "")
    (hsplit : ¬ splitText cfg.rag_chunk_size cfg.rag_chunk_overlap text = [])
    (hw : w.embedTexts (splitText cfg.rag_chunk_size cfg.rag_chunk_overlap text) = .ok es)
    (hlen : (splitText cfg.rag_chunk_size cfg.rag_chunk_overlap text).length < es.length) :
    ingest_text w cfg tenant did text uid ttl md st =
      (.error (.indexError "list index out of range"), st,
       [ExtCall.embedBatch (splitText cfg.rag_chunk_size cfg.rag_chunk_overlap text)]) := by
  obtain ⟨cs, hcs, hmap, hclen, hmeta⟩ :=
    buildChunks_ok tenant (orDefault uid "unknown") (orDefault ttl "") did
      (splitText cfg.rag_chunk_size cfg.rag_chunk_overlap text) 0 le_rfl
      (fun t ht => mem_splitText_ne_empty ht)
  have hie : (splitText cfg.rag_chunk_size cfg.rag_chunk_overlap text).isEmpty = false := by
    cases h' : splitText cfg.rag_chunk_size cfg.rag_chunk_overlap text with
    | nil => exact absurd h' hsplit
    | cons a b => rfl
  have hlt : cs.length < es.length := by rw [hclen]; exact hlen
  simp only [ingest_text, Document.make, hne, if_false, ite_false, hcs, hmap,
    generate_embeddings_batch, hie, Bool.false_eq_true, hw, attachEmbeddings, hlt,
    if_true, ite_true]

/-- Witness for the amended C3: a provider that returns two vectors for the
one-chunk document `"hi"` makes ingestion raise `IndexError` and store
nothing. -/
theorem c3_embedding_mismatch_amended_witness :
    ingest_text twoVecWorld defaultSettings "t3" "d3" "hi" none none [] emptyChroma
      = (.error (.indexError "list index out of range"), emptyChroma,
         [ExtCall.embedBatch ["hi"]]) := by
  have h := c3_embedding_mismatch_amended twoVecWorld defaultSettings "t3" "d3" "hi"
    none none [] emptyChroma [[1], [2]] (by decide) (by decide) (by decide) (by decide)
  rw [show splitText defaultSettings.rag_chunk_size defaultSettings.rag_chunk_overlap "hi"
      = ["hi"] from by decide] at h
  exact h

/-- Claim C5: the `DELETE tenant` route never reaches the vector store — it
calls `rag.delete_tenant_data(tenant_id)` but `RAGService` defines no such
method, so every request (here tenant `"acme"` with RAG enabled, the
default) dies with `AttributeError` instead of deleting the collection and
answering ok. -/
theorem c5_delete_tenant_route_bug :
    delete_tenant_route defaultSettings (some "acme") emptyChroma
      = (.error (.attributeError
          "RAGService object has no attribute delete_tenant_data"),
         emptyChroma, []) ∧
    ¬ "delete_tenant_data" ∈ ragServiceMethods ∧
    defaultSettings.rag_enabled = true := by
  decide

/-- Claim C6, counterexample: `delete_document` on a document that was
never stored (the index is empty) is not an error but returns `true`, not
the `false` the claim states — the repository returns `True` after any
successful delete round trip, matched or not. -/
theorem c6_counterexample :
    (delete_document "missing" "t6" emptyChroma).1 = .ok true ∧
    ¬ (delete_document "missing" "t6" emptyChroma).1 = .ok false := by
  decide

/-- Claim C6, amended: `delete_document` is never an error and always
returns `true`, whether or not anything matched; `count_chunks` on a tenant
whose collection does not exist is not an error and returns 0, with or
without a `user_id` filter. -/
theorem c6_delete_count_amended :
    (∀ (d t : String) (st : ChromaState), (delete_document d t st).1 = .ok true) ∧
    (∀ (t : String) (u : Option String) (st : ChromaState),
      st.lookup (collectionName t) = none →
      (count_chunks_service t u st).1 = .ok 0) := by
  constructor
  · intro d t st
    rfl
  · intro t u st hnone
    have hent : getEntries st (collectionName t) = [] := by
      unfold getEntries
      rw [hnone]
    simp only [count_chunks_service, count_chunks, getEntries_getOrCreate, hent]
    cases u with
    | none => rfl
    | some s =>
      by_cases hs : s = "" <;> simp [hs]

/-- Witness for the amended C6 at fresh concrete inputs. -/
theorem c6_delete_count_amended_witness :
    (delete_document "missing2" "t6b" emptyChroma).1 = .ok true ∧
    (count_chunks_service "ghost3" none emptyChroma).1 = .ok 0 :=
  ⟨c6_delete_count_amended.1 "missing2" "t6b" emptyChroma,
   c6_delete_count_amended.2 "ghost3" none emptyChroma (by decide)⟩

/-- Claim C7: a `retrieve` call whose effective parameters are invalid —
whitespace-only query text, effective `top_k ≤ 0`, or effective
`min_similarity` outside `[0, 1]` — raises `ValueError` from the
`SearchQuery` constructor with the state untouched and the external-call
log empty: no embedding-provider or index call is made. -/
theorem c7_retrieve_validation (w : ExtWorld) (cfg : RagConfig) (qt tenant : String)
    (tk : Option Int) (uid : Option String) (ms : Option Rat) (st : ChromaState)
    (hbad : pyStrip qt = "" ∨
      (match tk with
       | none => cfg.rag_top_k
       | some k => if k = 0 then cfg.rag_top_k else k) ≤ 0 ∨
      (match ms with
       | none => cfg.rag_min_similarity
       | some m => m) < 0 ∨
      1 < (match ms with
       | none => cfg.rag_min_similarity
       | some m => m)) :
    ∃ m, retrieve w cfg qt tenant tk uid ms st = (.error (.valueError m), st, []) := by
  simp only [retrieve]
  split
  · rename_i e herr
    obtain ⟨m, hm⟩ := searchQuery_make_eq_error herr
    exact ⟨m, by rw [hm]⟩
  · rename_i sq hok
    obtain ⟨_, hq, htk, hms0, hms1⟩ := searchQuery_make_eq_ok hok
    rcases hbad with hb | hb | hb | hb
    · exact absurd hb hq
    · omega
    · exact absurd hb (not_lt.mpr hms0)
    · exact absurd hb (not_lt.mpr hms1)

/-- Witness for C7 at the empty query string. -/
theorem c7_retrieve_validation_witness :
    ∃ m, retrieve constWorld defaultSettings "" "t7" none none none emptyChroma
      = (.error (.valueError m), emptyChroma, []) :=
  c7_retrieve_validation constWorld defaultSettings "" "t7" none none none emptyChroma
    (Or.inl (by decide))

/-- Claim C1, counterexample: the tenant-to-collection sanitization is not
injective — the distinct tenant ids `"a-b"` and `"a b"` map to the same
collection `tenant_a_b_chunks`, and a chunk ingested under `"a-b"` is
returned (metadata still saying `tenant_id = "a-b"`) by a `retrieve` scoped
to `"a b"` with no filters. -/
theorem c1_counterexample :
    collectionName "a-b" = collectionName "a b" ∧
    ¬ ("a-b" : String) = "a b" ∧
    (retrieve constWorld defaultSettings "hello" "a b" (some 5) none (some 0)
      (ingest_text constWorld defaultSettings "a-b" "doc1" "hello" none none []
        emptyChroma).2.1).1
      = .ok [(⟨"hello", 0, "doc1",
          [("document_id", MetaVal.s "doc1"), ("chunk_index", MetaVal.i 0),
           ("tenant_id", MetaVal.s "a-b"), ("tenant_id", MetaVal.s "a-b"),
           ("user_id", MetaVal.s "unknown"), ("title", MetaVal.s "")], none⟩, 1)] := by
  refine ⟨by decide, by decide, ?_⟩
  have hstate : (ingest_text constWorld defaultSettings "a-b" "doc1" "hello" none none []
      emptyChroma).2.1
      = [("tenant_a_b_chunks",
          [⟨"doc1:0", "hello",
            [("document_id", MetaVal.s "doc1"), ("chunk_index", MetaVal.i 0),
             ("tenant_id", MetaVal.s "a-b"), ("tenant_id", MetaVal.s "a-b"),
             ("user_id", MetaVal.s "unknown"), ("title", MetaVal.s "")],
            some [1]⟩])] := by decide
  have h := retrieve_eval_hit constWorld defaultSettings "hello" "a b" 5 0
    [("tenant_a_b_chunks",
      [⟨"doc1:0", "hello",
        [("document_id", MetaVal.s "doc1"), ("chunk_index", MetaVal.i 0),
         ("tenant_id", MetaVal.s "a-b"), ("tenant_id", MetaVal.s "a-b"),
         ("user_id", MetaVal.s "unknown"), ("title", MetaVal.s "")],
        some [1]⟩])]
    ⟨"doc1:0", "hello",
      [("document_id", MetaVal.s "doc1"), ("chunk_index", MetaVal.i 0),
       ("tenant_id", MetaVal.s "a-b"), ("tenant_id", MetaVal.s "a-b"),
       ("user_id", MetaVal.s "unknown"), ("title", MetaVal.s "")],
      some [1]⟩
    [1] 0
    ⟨"hello", 0, "doc1",
      [("document_id", MetaVal.s "doc1"), ("chunk_index", MetaVal.i 0),
       ("tenant_id", MetaVal.s "a-b"), ("tenant_id", MetaVal.s "a-b"),
       ("user_id", MetaVal.s "unknown"), ("title", MetaVal.s "")], none⟩
    (by decide) (by decide) (by decide) (by decide) (by decide)
    (by
      rw [show constWorld.distOf (SearchQuery.normalizedQuery ⟨"hello", 5, some [], 0⟩)
        (⟨"doc1:0", "hello",
          [("document_id", MetaVal.s "doc1"), ("chunk_index", MetaVal.i 0),
           ("tenant_id", MetaVal.s "a-b"), ("tenant_id", MetaVal.s "a-b"),
           ("user_id", MetaVal.s "unknown"), ("title", MetaVal.s "")],
          some [1]⟩ : ChromaEntry) = (0 : Rat) from rfl, sub_zero]
      decide)
    (by decide) (by decide)
  rw [show constWorld.distOf (SearchQuery.normalizedQuery ⟨"hello", 5, some [], 0⟩)
      (⟨"doc1:0", "hello",
        [("document_id", MetaVal.s "doc1"), ("chunk_index", MetaVal.i 0),
         ("tenant_id", MetaVal.s "a-b"), ("tenant_id", MetaVal.s "a-b"),
         ("user_id", MetaVal.s "unknown"), ("title", MetaVal.s "")],
        some [1]⟩ : ChromaEntry) = (0 : Rat) from rfl, sub_zero] at h
  rw [hstate, h]

/-- Claim C1, amended: isolation holds exactly up to the sanitized
collection name — when tenants A and B map to DIFFERENT collections, a
`retrieve` scoped to B after any ingestion under A can only return chunk
contents that were already stored under B's collection beforehand. -/
theorem c1_tenant_isolation_amended (w : ExtWorld) (cfg : RagConfig)
    (tA tB dA textA : String) (uA tiA : Option String) (mA : ChunkMeta)
    (qt : String) (tk : Option Int) (uid : Option String) (ms : Option Rat)
    (st st1 st2 : ChromaState) (r : Except RagError Nat)
    (log1 log2 : List ExtCall) (results : List (DocumentChunk × Rat))
    (hAB : ¬ collectionName tB = collectionName tA)
    (hing : ingest_text w cfg tA dA textA uA tiA mA st = (r, st1, log1))
    (hret : retrieve w cfg qt tB tk uid ms st1 = (.ok results, st2, log2)) :
    ∀ c s, (c, s) ∈ results →
      c.content ∈ (getEntries st (collectionName tB)).map (fun e => e.document) := by
  intro c s hcs
  have hmem := retrieve_ok_content_mem hret c s hcs
  have hpres := ingest_getEntries_ne w cfg tA dA textA uA tiA mA st (collectionName tB) hAB
  rw [show (ingest_text w cfg tA dA textA uA tiA mA st).2.1 = st1 from by rw [hing]]
    at hpres
  rw [hpres] at hmem
  exact hmem

/-- Witness for the amended C1: with `"world"` already stored under tenant
`"b1"`, ingesting under the distinct-collection tenant `"a1"` and then
retrieving under `"b1"` returns only content that was already in `"b1"`,
here `"world"`. -/
theorem c1_tenant_isolation_amended_witness :
    ("world" : String) ∈ (getEntries
      [("tenant_b1_chunks",
        [⟨"d0:0", "world",
          [("document_id", MetaVal.s "d0"), ("chunk_index", MetaVal.i 0),
           ("tenant_id", MetaVal.s "b1"), ("tenant_id", MetaVal.s "b1"),
           ("user_id", MetaVal.s "unknown"), ("title", MetaVal.s "")],
          some [1]⟩])]
      (collectionName "b1")).map (fun e => e.document) := by
  have hing : ingest_text constWorld defaultSettings "a1" "dA" "hello" none none []
      [("tenant_b1_chunks",
        [⟨"d0:0", "world",
          [("document_id", MetaVal.s "d0"), ("chunk_index", MetaVal.i 0),
           ("tenant_id", MetaVal.s "b1"), ("tenant_id", MetaVal.s "b1"),
           ("user_id", MetaVal.s "unknown"), ("title", MetaVal.s "")],
          some [1]⟩])]
      = (.ok 1,
         [("tenant_b1_chunks",
           [⟨"d0:0", "world",
             [("document_id", MetaVal.s "d0"), ("chunk_index", MetaVal.i 0),
              ("tenant_id", MetaVal.s "b1"), ("tenant_id", MetaVal.s "b1"),
              ("user_id", MetaVal.s "unknown"), ("title", MetaVal.s "")],
             some [1]⟩]),
          ("tenant_a1_chunks",
           [⟨"dA:0", "hello",
             [("document_id", MetaVal.s "dA"), ("chunk_index", MetaVal.i 0),
              ("tenant_id", MetaVal.s "a1"), ("tenant_id", MetaVal.s "a1"),
              ("user_id", MetaVal.s "unknown"), ("title", MetaVal.s "")],
             some [1]⟩])],
         [ExtCall.embedBatch ["hello"], ExtCall.indexGetOrCreate "tenant_a1_chunks",
          ExtCall.indexAdd "tenant_a1_chunks" 1]) := by decide
  have hret := retrieve_eval_hit constWorld defaultSettings "hola" "b1" 5 0
    [("tenant_b1_chunks",
      [⟨"d0:0", "world",
        [("document_id", MetaVal.s "d0"), ("chunk_index", MetaVal.i 0),
         ("tenant_id", MetaVal.s "b1"), ("tenant_id", MetaVal.s "b1"),
         ("user_id", MetaVal.s "unknown"), ("title", MetaVal.s "")],
        some [1]⟩]),
     ("tenant_a1_chunks",
      [⟨"dA:0", "hello",
        [("document_id", MetaVal.s "dA"), ("chunk_index", MetaVal.i 0),
         ("tenant_id", MetaVal.s "a1"), ("tenant_id", MetaVal.s "a1"),
         ("user_id", MetaVal.s "unknown"), ("title", MetaVal.s "")],
        some [1]⟩])]
    ⟨"d0:0", "world",
      [("document_id", MetaVal.s "d0"), ("chunk_index", MetaVal.i 0),
       ("tenant_id", MetaVal.s "b1"), ("tenant_id", MetaVal.s "b1"),
       ("user_id", MetaVal.s "unknown"), ("title", MetaVal.s "")],
      some [1]⟩
    [1] 0
    ⟨"world", 0, "d0",
      [("document_id", MetaVal.s "d0"), ("chunk_index", MetaVal.i 0),
       ("tenant_id", MetaVal.s "b1"), ("tenant_id", MetaVal.s "b1"),
       ("user_id", MetaVal.s "unknown"), ("title", MetaVal.s "")], none⟩
    (by decide) (by decide) (by decide) (by decide) (by decide)
    (by
      rw [show constWorld.distOf (SearchQuery.normalizedQuery ⟨"hola", 5, some [], 0⟩)
        (⟨"d0:0", "world",
          [("document_id", MetaVal.s "d0"), ("chunk_index", MetaVal.i 0),
           ("tenant_id", MetaVal.s "b1"), ("tenant_id", MetaVal.s "b1"),
           ("user_id", MetaVal.s "unknown"), ("title", MetaVal.s "")],
          some [1]⟩ : ChromaEntry) = (0 : Rat) from rfl, sub_zero]
      decide)
    (by decide) (by decide)
  exact c1_tenant_isolation_amended constWorld defaultSettings "a1" "b1" "dA" "hello"
    none none [] "hola" (some 5) none (some 0) _ _ _ _ _ _ _
    (by decide) hing hret
    ⟨"world", 0, "d0",
      [("document_id", MetaVal.s "d0"), ("chunk_index", MetaVal.i 0),
       ("tenant_id", MetaVal.s "b1"), ("tenant_id", MetaVal.s "b1"),
       ("user_id", MetaVal.s "unknown"), ("title", MetaVal.s "")], none⟩
    (1 - constWorld.distOf (SearchQuery.normalizedQuery ⟨"hola", 5, some [], 0⟩)
      ⟨"d0:0", "world",
        [("document_id", MetaVal.s "d0"), ("chunk_index", MetaVal.i 0),
         ("tenant_id", MetaVal.s "b1"), ("tenant_id", MetaVal.s "b1"),
         ("user_id", MetaVal.s "unknown"), ("title", MetaVal.s "")],
        some [1]⟩)
    (List.mem_cons_self _ _)

/-- Claim C4: every (chunk, similarity) pair returned by a `retrieve` call
with an explicit threshold satisfies `similarity ≥ min_similarity`, where
similarity is `1 - cosine distance`; pairs below the threshold are skipped
inside the result loop, not merely ranked lower. -/
theorem c4_retrieve_threshold (w : ExtWorld) (cfg : RagConfig) (qt tenant : String)
    (tk : Option Int) (uid : Option String) (ms : Rat) (st st' : ChromaState)
    (results : List (DocumentChunk × Rat)) (log : List ExtCall)
    (h : retrieve w cfg qt tenant tk uid (some ms) st = (.ok results, st', log)) :
    ∀ c s, (c, s) ∈ results → ms ≤ s := by
  simp only [retrieve] at h
  split at h
  · exact absurd h (by simp)
  · rename_i sq hok
    obtain ⟨hsq, _, _, _, _⟩ := searchQuery_make_eq_ok hok
    intro c s hcs
    have hle := search_ok_sim_ge h c s hcs
    rw [hsq] at hle
    exact hle

/-- Witness for C4: a retrieve call with threshold 0 whose single result has
similarity 1, so the theorem yields `0 ≤ 1`. -/
theorem c4_retrieve_threshold_witness : (0 : Rat) ≤ 1 := by
  have hret := retrieve_eval_hit constWorld defaultSettings "hola" "c4" 5 0
    [("tenant_c4_chunks",
      [⟨"d4:0", "hola",
        [("document_id", MetaVal.s "d4"), ("chunk_index", MetaVal.i 0),
         ("tenant_id", MetaVal.s "c4"), ("tenant_id", MetaVal.s "c4"),
         ("user_id", MetaVal.s "unknown"), ("title", MetaVal.s "")],
        some [1]⟩])]
    ⟨"d4:0", "hola",
      [("document_id", MetaVal.s "d4"), ("chunk_index", MetaVal.i 0),
       ("tenant_id", MetaVal.s "c4"), ("tenant_id", MetaVal.s "c4"),
       ("user_id", MetaVal.s "unknown"), ("title", MetaVal.s "")],
      some [1]⟩
    [1] 0
    ⟨"hola", 0, "d4",
      [("document_id", MetaVal.s "d4"), ("chunk_index", MetaVal.i 0),
       ("tenant_id", MetaVal.s "c4"), ("tenant_id", MetaVal.s "c4"),
       ("user_id", MetaVal.s "unknown"), ("title", MetaVal.s "")], none⟩
    (by decide) (by decide) (by decide) (by decide) (by decide)
    (by
      rw [show constWorld.distOf (SearchQuery.normalizedQuery ⟨"hola", 5, some [], 0⟩)
        (⟨"d4:0", "hola",
          [("document_id", MetaVal.s "d4"), ("chunk_index", MetaVal.i 0),
           ("tenant_id", MetaVal.s "c4"), ("tenant_id", MetaVal.s "c4"),
           ("user_id", MetaVal.s "unknown"), ("title", MetaVal.s "")],
          some [1]⟩ : ChromaEntry) = (0 : Rat) from rfl, sub_zero]
      decide)
    (by decide) (by decide)
  rw [show constWorld.distOf (SearchQuery.normalizedQuery ⟨"hola", 5, some [], 0⟩)
      (⟨"d4:0", "hola",
        [("document_id", MetaVal.s "d4"), ("chunk_index", MetaVal.i 0),
         ("tenant_id", MetaVal.s "c4"), ("tenant_id", MetaVal.s "c4"),
         ("user_id", MetaVal.s "unknown"), ("title", MetaVal.s "")],
        some [1]⟩ : ChromaEntry) = (0 : Rat) from rfl, sub_zero] at hret
  exact c4_retrieve_threshold constWorld defaultSettings "hola" "c4" (some 5) none 0
    _ _ _ _ hret
    ⟨"hola", 0, "d4",
      [("document_id", MetaVal.s "d4"), ("chunk_index", MetaVal.i 0),
       ("tenant_id", MetaVal.s "c4"), ("tenant_id", MetaVal.s "c4"),
       ("user_id", MetaVal.s "unknown"), ("title", MetaVal.s "")], none⟩
    1 (List.mem_cons_self _ _)

/-- Claim C8, counterexample: tenant `"x-y"` never ingested anything, yet —
because its sanitized collection name collides with tenant `"x_y"` — a
valid retrieve scoped to `"x-y"` is not empty: it returns the chunk stored
by `"x_y"`. -/
theorem c8_counterexample :
    ¬ ((retrieve constWorld defaultSettings "hola" "x-y" (some 5) none (some 0)
        (ingest_text constWorld defaultSettings "x_y" "d1" "hola" none none []
          emptyChroma).2.1).1 = .ok []) ∧
    (retrieve constWorld defaultSettings "hola" "x-y" (some 5) none (some 0)
        (ingest_text constWorld defaultSettings "x_y" "d1" "hola" none none []
          emptyChroma).2.1).1
      = .ok [(⟨"hola", 0, "d1",
          [("document_id", MetaVal.s "d1"), ("chunk_index", MetaVal.i 0),
           ("tenant_id", MetaVal.s "x_y"), ("tenant_id", MetaVal.s "x_y"),
           ("user_id", MetaVal.s "unknown"), ("title", MetaVal.s "")], none⟩, 1)] := by
  have hstate : (ingest_text constWorld defaultSettings "x_y" "d1" "hola" none none []
      emptyChroma).2.1
      = [("tenant_x_y_chunks",
          [⟨"d1:0", "hola",
            [("document_id", MetaVal.s "d1"), ("chunk_index", MetaVal.i 0),
             ("tenant_id", MetaVal.s "x_y"), ("tenant_id", MetaVal.s "x_y"),
             ("user_id", MetaVal.s "unknown"), ("title", MetaVal.s "")],
            some [1]⟩])] := by decide
  have h := retrieve_eval_hit constWorld defaultSettings "hola" "x-y" 5 0
    [("tenant_x_y_chunks",
      [⟨"d1:0", "hola",
        [("document_id", MetaVal.s "d1"), ("chunk_index", MetaVal.i 0),
         ("tenant_id", MetaVal.s "x_y"), ("tenant_id", MetaVal.s "x_y"),
         ("user_id", MetaVal.s "unknown"), ("title", MetaVal.s "")],
        some [1]⟩])]
    ⟨"d1:0", "hola",
      [("document_id", MetaVal.s "d1"), ("chunk_index", MetaVal.i 0),
       ("tenant_id", MetaVal.s "x_y"), ("tenant_id", MetaVal.s "x_y"),
       ("user_id", MetaVal.s "unknown"), ("title", MetaVal.s "")],
      some [1]⟩
    [1] 0
    ⟨"hola", 0, "d1",
      [("document_id", MetaVal.s "d1"), ("chunk_index", MetaVal.i 0),
       ("tenant_id", MetaVal.s "x_y"), ("tenant_id", MetaVal.s "x_y"),
       ("user_id", MetaVal.s "unknown"), ("title", MetaVal.s "")], none⟩
    (by decide) (by decide) (by decide) (by decide) (by decide)
    (by
      rw [show constWorld.distOf (SearchQuery.normalizedQuery ⟨"hola", 5, some [], 0⟩)
        (⟨"d1:0", "hola",
          [("document_id", MetaVal.s "d1"), ("chunk_index", MetaVal.i 0),
           ("tenant_id", MetaVal.s "x_y"), ("tenant_id", MetaVal.s "x_y"),
           ("user_id", MetaVal.s "unknown"), ("title", MetaVal.s "")],
          some [1]⟩ : ChromaEntry) = (0 : Rat) from rfl, sub_zero]
      decide)
    (by decide) (by decide)
  rw [show constWorld.distOf (SearchQuery.normalizedQuery ⟨"hola", 5, some [], 0⟩)
      (⟨"d1:0", "hola",
        [("document_id", MetaVal.s "d1"), ("chunk_index", MetaVal.i 0),
         ("tenant_id", MetaVal.s "x_y"), ("tenant_id", MetaVal.s "x_y"),
         ("user_id", MetaVal.s "unknown"), ("title", MetaVal.s "")],
        some [1]⟩ : ChromaEntry) = (0 : Rat) from rfl, sub_zero] at h
  rw [hstate]
  constructor
  · rw [h]; decide
  · rw [h]

/-- Claim C8, amended: for every tenant whose (sanitized) collection does
not yet exist in the index — nothing was ever ingested into it under any
alias — a valid `retrieve` with a healthy embedding provider returns the
empty list without error, and as a side effect the index client has lazily
created the collection on this read path. -/
theorem c8_retrieve_empty_amended (w : ExtWorld) (cfg : RagConfig) (qt tenant : String)
    (k : Int) (μ : Rat) (uid : Option String) (st : ChromaState)
    (hnone : st.lookup (collectionName tenant) = none)
    (hq : ¬ pyStrip qt = "") (hk : 0 < k) (hμ0 : 0 ≤ μ) (hμ1 : μ ≤ 1)
    (hw : ∀ t, ∃ vs, w.embedTexts [t] = .ok vs) :
    (∃ log, retrieve w cfg qt tenant (some k) uid (some μ) st
      = (.ok [], getOrCreateCollection st (collectionName tenant), log)) ∧
    (getOrCreateCollection st (collectionName tenant)).lookup (collectionName tenant)
      = some [] := by
  have hent : getEntries st (collectionName tenant) = [] := by
    unfold getEntries
    rw [hnone]
  constructor
  · simp only [retrieve]
    rw [if_neg (show ¬ k = 0 by omega)]
    generalize (match uid with
      | some u => if u = "" then [] else [("user_id", MetaVal.s u)]
      | none => ([] : ChunkMeta)) = fl
    have hsq : SearchQuery.make qt k (some fl) μ = .ok ⟨qt, k, some fl, μ⟩ := by
      unfold SearchQuery.make
      rw [if_neg (fun hor => hor.elim (fun h1 => hq (by rw [h1]; rfl)) hq),
        if_neg (by omega), if_neg (not_not_intro ⟨hμ0, hμ1⟩)]
    obtain ⟨qe, hemb⟩ : ∃ qe,
        (generate_embedding w
          (SearchQuery.normalizedQuery ⟨qt, k, some fl, μ⟩)).1 = .ok qe := by
      by_cases hn : SearchQuery.normalizedQuery ⟨qt, k, some fl, μ⟩ = "" ∨
          pyStrip (SearchQuery.normalizedQuery ⟨qt, k, some fl, μ⟩) = ""
      · unfold generate_embedding
        rw [if_pos hn]
        exact ⟨[], rfl⟩
      · unfold generate_embedding
        rw [if_neg hn]
        obtain ⟨vs, hvs⟩ := hw _
        rw [hvs]
        exact ⟨_, rfl⟩
    have hs := search_eval_nil hemb hent
    simp only [hsq]
    rw [hs]
    exact ⟨_, rfl⟩
  · rw [lookup_getOrCreate_self, hent]

/-- Witness for the amended C8 at the never-ingested tenant `"ghost"`. -/
theorem c8_retrieve_empty_amended_witness :
    (∃ log, retrieve constWorld defaultSettings "hola" "ghost" (some 5) none (some 0)
      emptyChroma
      = (.ok [], getOrCreateCollection emptyChroma (collectionName "ghost"), log)) ∧
    (getOrCreateCollection emptyChroma (collectionName "ghost")).lookup
      (collectionName "ghost") = some [] :=
  c8_retrieve_empty_amended constWorld defaultSettings "hola" "ghost" 5 0 none
    emptyChroma (by decide) (by decide) (by decide) (by decide) (by decide)
    (fun t => ⟨[[1]], rfl⟩)

/-- Claim C10: the chunk records stored by `ingest_text` are independent of
the caller-supplied `metadata` argument (it flows only into the discarded
`Document` value), and every newly stored entry carries exactly the keys
`document_id`, `chunk_index`, `tenant_id`, `user_id`, `title`, with
`tenant_id` the ingesting tenant, `user_id` defaulting to `"unknown"` and
`title` to `""`. -/
theorem c10_metadata_independence (w : ExtWorld) (cfg : RagConfig)
    (tenant did text : String) (uid ttl : Option String) (m1 m2 : ChunkMeta)
    (st : ChromaState) :
    ingest_text w cfg tenant did text uid ttl m1 st
      = ingest_text w cfg tenant did text uid ttl m2 st ∧
    ∀ e, e ∈ getEntries (ingest_text w cfg tenant did text uid ttl m1 st).2.1
        (collectionName tenant) →
      e ∈ getEntries st (collectionName tenant) ∨
      (metaKeys e.metadata = ["document_id", "chunk_index", "tenant_id", "user_id",
        "title"] ∧
       metaGet e.metadata "tenant_id" = some (MetaVal.s tenant) ∧
       metaGet e.metadata "user_id" = some (MetaVal.s (orDefault uid "unknown")) ∧
       metaGet e.metadata "title" = some (MetaVal.s (orDefault ttl ""))) := by
  constructor
  · by_cases h : text = "" <;> simp [ingest_text, Document.make, h]
  · intro e he
    simp only [ingest_text] at he
    split at he
    · exact Or.inl he
    · split at he
      · exact Or.inl he
      · rename_i cs hcs
        split at he
        · exact Or.inl he
        · rename_i embs hembs
          split at he
          · exact Or.inl he
          · rename_i cs2 hatt
            have hcs2eq : cs2 = attachEmbeddings.attachGo cs embs := by
              unfold attachEmbeddings at hatt
              split at hatt
              · cases hatt
              · cases hatt
                rfl
            have hmain : ∀ st2 : ChromaState,
                (add_chunks cs2 tenant st).2.1 = st2 →
                e ∈ getEntries st2 (collectionName tenant) →
                e ∈ getEntries st (collectionName tenant) ∨
                (metaKeys e.metadata = ["document_id", "chunk_index", "tenant_id",
                  "user_id", "title"] ∧
                 metaGet e.metadata "tenant_id" = some (MetaVal.s tenant) ∧
                 metaGet e.metadata "user_id"
                   = some (MetaVal.s (orDefault uid "unknown")) ∧
                 metaGet e.metadata "title" = some (MetaVal.s (orDefault ttl ""))) := by
              intro st2 hst2 hein
              rw [← hst2, add_chunks_getEntries_self] at hein
              rcases List.mem_append.mp hein with hold | hnew
              · exact Or.inl hold
              · right
                split at hnew
                · cases hnew
                · have hmeta := mem_buildEntries_metadata hnew
                  simp only [buildMetadatas, List.mem_map] at hmeta
                  obtain ⟨c, hc, hmeq⟩ := hmeta
                  rw [hcs2eq] at hc
                  obtain ⟨c', hc', _, hcm, _, _⟩ := attachGo_mem hc
                  have hm3 := buildChunks_mem_metadata hcs c' hc'
                  rw [← hmeq, hcm, hm3]
                  refine ⟨?_, ?_, ?_, ?_⟩
                  · simp [metaKeys, keysAux]
                  · simp [metaGet, List.filter]
                  · simp [metaGet, List.filter]
                  · simp [metaGet, List.filter]
            split at he
            · rename_i e' st2 addLog heq
              exact hmain st2 (by rw [heq]) he
            · rename_i v st2 addLog heq
              exact hmain st2 (by rw [heq]) he

/-- Witness for C10: ingesting with caller metadata `{"evil": "x"}` and with
no metadata produces identical results, and the stored entry for tenant
`"t10"` has exactly the five expected metadata keys with the expected
values. -/
theorem c10_metadata_independence_witness :
    ingest_text constWorld defaultSettings "t10" "d10" "hey" (some "u") (some "T")
        [("evil", MetaVal.s "x")] emptyChroma
      = ingest_text constWorld defaultSettings "t10" "d10" "hey" (some "u") (some "T")
        [] emptyChroma ∧
    ((⟨"d10:0", "hey",
        [("document_id", MetaVal.s "d10"), ("chunk_index", MetaVal.i 0),
         ("tenant_id", MetaVal.s "t10"), ("tenant_id", MetaVal.s "t10"),
         ("user_id", MetaVal.s "u"), ("title", MetaVal.s "T")],
        some [1]⟩ : ChromaEntry) ∈ getEntries emptyChroma (collectionName "t10") ∨
      (metaKeys [("document_id", MetaVal.s "d10"), ("chunk_index", MetaVal.i 0),
         ("tenant_id", MetaVal.s "t10"), ("tenant_id", MetaVal.s "t10"),
         ("user_id", MetaVal.s "u"), ("title", MetaVal.s "T")]
         = ["document_id", "chunk_index", "tenant_id", "user_id", "title"] ∧
       metaGet [("document_id", MetaVal.s "d10"), ("chunk_index", MetaVal.i 0),
         ("tenant_id", MetaVal.s "t10"), ("tenant_id", MetaVal.s "t10"),
         ("user_id", MetaVal.s "u"), ("title", MetaVal.s "T")] "tenant_id"
         = some (MetaVal.s "t10") ∧
       metaGet [("document_id", MetaVal.s "d10"), ("chunk_index", MetaVal.i 0),
         ("tenant_id", MetaVal.s "t10"), ("tenant_id", MetaVal.s "t10"),
         ("user_id", MetaVal.s "u"), ("title", MetaVal.s "T")] "user_id"
         = some (MetaVal.s (orDefault (some "u") "unknown")) ∧
       metaGet [("document_id", MetaVal.s "d10"), ("chunk_index", MetaVal.i 0),
         ("tenant_id", MetaVal.s "t10"), ("tenant_id", MetaVal.s "t10"),
         ("user_id", MetaVal.s "u"), ("title", MetaVal.s "T")] "title"
         = some (MetaVal.s (orDefault (some "T") "")))) := by
  have h := c10_metadata_independence constWorld defaultSettings "t10" "d10" "hey"
    (some "u") (some "T") [("evil", MetaVal.s "x")] [] emptyChroma
  exact ⟨h.1, h.2
    ⟨"d10:0", "hey",
      [("document_id", MetaVal.s "d10"), ("chunk_index", MetaVal.i 0),
       ("tenant_id", MetaVal.s "t10"), ("tenant_id", MetaVal.s "t10"),
       ("user_id", MetaVal.s "u"), ("title", MetaVal.s "T")],
      some [1]⟩
    (by decide)⟩

end RagCore
